import Mathlib

/-!
Shallow embedding of the ExpenseSense query pipeline and dashboard data
processing, together with proofs of the specified properties.

Sources embedded from the repository:
- src/utils/dataProcessor.js (processExcelFile, calculateMetrics)
- src/utils/categoryMapping.js (getDashboardCategory)
- src/utils/mlx.js (listMLXModels)
- src/components/ChatInterface.jsx (initializeConnections, handleSend,
  WORKFLOW_STAGES)

Parts of the repository that are referenced by the specification but whose
source is not available here (backend/utils/analysis_tools.py,
src/utils/pythonRunner.js, src/utils/categories.json) are modelled from the
specification; each such definition says so in its doc comment.

JavaScript numbers are modelled as rationals (exact arithmetic over the
values that occur; NaN is modelled as a missing Option value at the point
where it arises), JavaScript strings as Lean strings, and Date objects as
epoch milliseconds (Option Int, none for an Invalid Date).
-/

namespace ExpenseSense

/-- JavaScript `v || d` for string-valued slots: missing values and the empty
string are falsy and fall through to the default. -/
def jsOrStr (v : Option String) (d : String) : String :=
  match v with
  | some s => if s = "" then d else s
  | none => d

/-- JavaScript `x || d` for number-valued slots: NaN (modelled as none) and 0
are falsy and fall through to the default. -/
def jsOrNum (v : Option ℚ) (d : ℚ) : ℚ :=
  match v with
  | some x => if x = 0 then d else x
  | none => d

/-- JavaScript `x || d` applied to an already-computed number. -/
def jsOrQ (x d : ℚ) : ℚ :=
  if x = 0 then d else x

/-- JavaScript truthiness of a string-or-missing value. -/
def jsTruthy (s : Option String) : Bool :=
  match s with
  | some v => v != ""
  | none => false

/-! ## Executable string primitives

The JavaScript string methods used by the embedded code (trim, toLowerCase,
split, global replace) are modelled by structurally recursive functions on
the character list of a string, so that every definition evaluates on
concrete inputs. -/

/-- Whitespace recognizer used by the trim model. -/
def isSpaceChar (c : Char) : Bool :=
  c = ' ' || c = '\t' || c = '\n' || c = '\r'

/-- Model of String.prototype.trim: strip whitespace from both ends. -/
def jsTrim (s : String) : String :=
  ⟨((s.data.dropWhile isSpaceChar).reverse.dropWhile isSpaceChar).reverse⟩

/-- Lower-casing of one ASCII character. -/
def charLower (c : Char) : Char :=
  if 'A' ≤ c ∧ c ≤ 'Z' then Char.ofNat (c.toNat + 32) else c

/-- Model of String.prototype.toLowerCase on the ASCII range. -/
def jsToLower (s : String) : String :=
  ⟨s.data.map charLower⟩

/-- Whether the pattern occurs at the head of the character list. -/
def startsWithSeq : List Char → List Char → Bool
  | [], _ => true
  | _ :: _, [] => false
  | p :: ps, c :: cs => p = c && startsWithSeq ps cs

/-- Whether the pattern occurs anywhere in the character list. -/
def containsSeq (pat : List Char) : List Char → Bool
  | [] => startsWithSeq pat []
  | c :: cs => startsWithSeq pat (c :: cs) || containsSeq pat cs

/-- Splitting on every non-overlapping occurrence of the pattern, left to
right; acc holds the reversed characters of the current piece. Structural
recursion on a fuel that starts at the length of the scanned list, which each
step strictly consumes, so the fuel never runs out. -/
def splitOnSeq (pat : List Char) : Nat → List Char → List Char → List (List Char)
  | _, [], acc => [acc.reverse]
  | 0, l, acc => [acc.reverse ++ l]
  | fuel + 1, c :: cs, acc =>
    if startsWithSeq pat (c :: cs) then
      acc.reverse :: splitOnSeq pat fuel (cs.drop (pat.length - 1)) []
    else
      splitOnSeq pat fuel cs (c :: acc)

/-- Model of String.prototype.split with a non-empty string separator. -/
def jsSplitOn (s pat : String) : List String :=
  if pat.data.isEmpty then [s]
  else (splitOnSeq pat.data s.data.length s.data []).map (fun l => ⟨l⟩)

/-- Replacing every non-overlapping occurrence of the pattern, left to
right, with the same fuel discipline as splitOnSeq. -/
def replaceSeq (pat rep : List Char) : Nat → List Char → List Char
  | _, [] => []
  | 0, l => l
  | fuel + 1, c :: cs =>
    if !pat.isEmpty && startsWithSeq pat (c :: cs) then
      rep ++ replaceSeq pat rep fuel (cs.drop (pat.length - 1))
    else
      c :: replaceSeq pat rep fuel cs

/-- Model of a global-regex String.prototype.replace on a literal pattern. -/
def jsReplaceAll (s pat rep : String) : String :=
  ⟨replaceSeq pat.data rep.data s.data.length s.data⟩

/-- Joining split pieces back with the separator; inverse of the split used
to locate the text after the first separator occurrence. -/
def joinWithSeq (sep : List Char) : List (List Char) → List Char
  | [] => []
  | [x] => x
  | x :: y :: rest => x ++ sep ++ joinWithSeq sep (y :: rest)

/-- String-level wrapper around joinWithSeq. -/
def jsJoinWith (sep : String) (parts : List String) : String :=
  ⟨joinWithSeq sep.data (parts.map (fun p => p.data))⟩

/-! ## Dashboard category mapping (src/utils/categoryMapping.js)

The mapping table itself lives in src/utils/categories.json, which is not
available; definitions therefore take the mapping as an explicit argument. -/

/-- Embedding of getDashboardCategory: trim and lower-case the raw category
and look it up in CATEGORY_MAPPING, defaulting to Miscellaneous. An absent or
empty raw category is falsy and also yields Miscellaneous. -/
def getDashboardCategory (mapping : List (String × String)) (rawCategory : Option String) : String :=
  match rawCategory with
  | none => "Miscellaneous"
  | some c =>
    if c = "" then "Miscellaneous"
    else
      let normalized := jsToLower (jsTrim c)
      match mapping.find? (fun kv => kv.fst == normalized) with
      | some kv => kv.snd
      | none => "Miscellaneous"

/-! ## Excel ingestion (src/utils/dataProcessor.js, processExcelFile) -/

/-- A raw spreadsheet row as seen by processExcelFile after sheet_to_json.
date is the epoch time of new Date(row.Date or row.date), none when parsing
produced an Invalid Date (also after the Date.parse fallback); expense is the
parseFloat of the raw Expense cell, none when parseFloat returned NaN. -/
structure RawRow where
  date : Option Int
  category : Option String
  expense : Option ℚ
  remarks : Option String
  onetime : Option ℚ
  forOthers : Option ℚ
  deriving DecidableEq

/-- A processed row. date stays optional here: the validity filter at the end
of processExcelFile is what removes rows whose date is invalid. -/
structure ProcessedRow where
  date : Option Int
  expense : ℚ
  remarks : String
  category : String
  newCategory : String
  onetime : Bool
  forOthers : ℚ
  deriving DecidableEq

/-- Embedding of the map step of processExcelFile: clean the raw cells, map
the category case-insensitively through CATEGORY_MAPPING (NFC normalization
of the raw category is not modelled: it does not change membership tests on
the plain ASCII categories used here). -/
def processRow (mapping : List (String × String)) (r : RawRow) : ProcessedRow :=
  let rawCategory := jsTrim (jsOrStr r.category "Unknown")
  let lowerRaw := jsToLower rawCategory
  let newCategory :=
    match mapping.find? (fun kv => jsToLower kv.fst == lowerRaw) with
    | some kv => kv.snd
    | none => rawCategory
  { date := r.date
    expense := jsOrNum r.expense 0
    remarks := jsOrStr r.remarks ""
    category := rawCategory
    newCategory := newCategory
    onetime := jsOrNum r.onetime 0 = 1
    forOthers := if jsOrNum r.forOthers 0 = 1 then 1 else 0 }

/-- Embedding of processExcelFile: map every raw row through processRow, then
keep only rows with a valid Date and a numeric Expense strictly above zero. -/
def processExcelFile (mapping : List (String × String)) (rows : List RawRow) : List ProcessedRow :=
  (rows.map (processRow mapping)).filter
    (fun row => row.date.isSome && decide (0 < row.expense))

/-! ## Dashboard metrics (src/utils/dataProcessor.js, calculateMetrics) -/

/-- The record returned by calculateMetrics. -/
structure Metrics where
  total : ℚ
  avgMonthly : ℚ
  avgDaily : ℚ
  days : Int
  deriving DecidableEq

/-- Embedding of the reduce that sums Expense over the rows. -/
def metricsTotal (data : List ProcessedRow) : ℚ :=
  data.foldl (fun sum row => sum + row.expense) 0

/-- Embedding of the sorted getTime array. Rows reaching calculateMetrics come
from processExcelFile and always carry a valid date (their date is some t);
the none case is given the placeholder 0 rather than a NaN model. -/
def sortedTimes (data : List ProcessedRow) : List Int :=
  (data.map (fun d => d.date.getD 0)).insertionSort (fun a b => a ≤ b)

/-- Embedding of the day count: Math.ceil of the absolute date span in days,
plus one. -/
def metricsDays (data : List ProcessedRow) : Int :=
  let sortedDates := sortedTimes data
  let minDate := sortedDates.headD 0
  let maxDate := sortedDates.getLastD 0
  let diffTime : ℚ := ((maxDate - minDate).natAbs : ℚ)
  ⌈diffTime / (1000 * 60 * 60 * 24)⌉ + 1

/-- Embedding of the month divisor: max(days / 30, 0.03). -/
def metricsMonths (data : List ProcessedRow) : ℚ :=
  max ((metricsDays data : ℚ) / 30) (3 / 100)

/-- Embedding of calculateMetrics. -/
def calculateMetrics (data : List ProcessedRow) : Metrics :=
  let total := metricsTotal data
  if data.length = 0 then { total := 0, avgMonthly := 0, avgDaily := 0, days := 0 }
  else
    let days := metricsDays data
    let months := metricsMonths data
    { total := total
      avgMonthly := total / jsOrQ months 1
      avgDaily := total / jsOrQ (days : ℚ) 1
      days := days }

/-- Claim C9: every row surviving Excel ingestion has a parseable date and an
expense strictly greater than zero, and any mapped row violating that is
dropped from the output. -/
theorem processExcelFile_valid_rows (mapping : List (String × String))
    (rows : List RawRow) (row : ProcessedRow)
    (h : row ∈ processExcelFile mapping rows) :
    row.date.isSome = true ∧ 0 < row.expense ∧
      ∀ r ∈ rows, ¬((processRow mapping r).date.isSome = true ∧
          0 < (processRow mapping r).expense) →
        processRow mapping r ∉ processExcelFile mapping rows := by
  have hmem := List.mem_filter.mp h
  have hp := hmem.2
  simp only [Bool.and_eq_true, decide_eq_true_eq] at hp
  refine ⟨hp.1, hp.2, ?_⟩
  intro r _ hbad hin
  have hmem2 := List.mem_filter.mp hin
  have hp2 := hmem2.2
  simp only [Bool.and_eq_true, decide_eq_true_eq] at hp2
  exact hbad hp2

/-- A concrete raw row with a valid date and a positive amount. -/
def sampleRawGood : RawRow :=
  { date := some 1700000000000, category := some "Groceries", expense := some 5,
    remarks := none, onetime := none, forOthers := none }

/-- A concrete raw row with a negative amount, which ingestion must drop. -/
def sampleRawBad : RawRow :=
  { date := some 1700000000000, category := some "Gift", expense := some (-3),
    remarks := none, onetime := none, forOthers := none }

/-- Witness for C9 at a concrete upload: one valid row and one row with a
negative amount; the valid row is in the output and satisfies the invariant. -/
theorem processExcelFile_valid_rows_witness :
    (processRow [] sampleRawGood).date.isSome = true ∧
      0 < (processRow [] sampleRawGood).expense := by
  have hmem : processRow [] sampleRawGood ∈ processExcelFile [] [sampleRawGood, sampleRawBad] := by
    refine List.mem_filter.mpr ⟨List.mem_map_of_mem _ (List.mem_cons_self _ _), ?_⟩
    rw [Bool.and_eq_true]
    exact ⟨rfl, by decide⟩
  have h := processExcelFile_valid_rows [] [sampleRawGood, sampleRawBad]
    (processRow [] sampleRawGood) hmem
  exact ⟨h.1, h.2.1⟩

/-- Claim C10: calculateMetrics is total and never divides by zero: the empty
list yields all zeros, and on a non-empty list the day count is at least one
and the month divisor is strictly positive, so the truthiness guards on the
divisors are no-ops and each average is a quotient by a nonzero quantity. -/
theorem calculateMetrics_safe (data : List ProcessedRow) (h : data ≠ []) :
    calculateMetrics [] = { total := 0, avgMonthly := 0, avgDaily := 0, days := 0 } ∧
    1 ≤ metricsDays data ∧
    0 < metricsMonths data ∧
    calculateMetrics data =
      { total := metricsTotal data
        avgMonthly := metricsTotal data / metricsMonths data
        avgDaily := metricsTotal data / (metricsDays data : ℚ)
        days := metricsDays data } ∧
    metricsMonths data ≠ 0 ∧ (metricsDays data : ℚ) ≠ 0 := by
  have hdays : 1 ≤ metricsDays data := by
    have hceil : (0 : ℤ) ≤ ⌈(((((sortedTimes data).getLastD 0 - (sortedTimes data).headD 0).natAbs : ℚ)) / (1000 * 60 * 60 * 24))⌉ := by
      apply Int.ceil_nonneg
      positivity
    unfold metricsDays
    dsimp only
    omega
  have hmonths : 0 < metricsMonths data := by
    unfold metricsMonths
    have : (0 : ℚ) < 3 / 100 := by norm_num
    exact lt_of_lt_of_le this (le_max_right _ _)
  have hdq : (0 : ℚ) < (metricsDays data : ℚ) := by
    exact_mod_cast lt_of_lt_of_le Int.zero_lt_one hdays
  refine ⟨rfl, hdays, hmonths, ?_, ne_of_gt hmonths, ne_of_gt hdq⟩
  have hlen : ¬(data.length = 0) := by
    simpa [List.length_eq_zero] using h
  unfold calculateMetrics
  simp only [hlen, if_false]
  have hm : jsOrQ (metricsMonths data) 1 = metricsMonths data := by
    unfold jsOrQ
    simp [ne_of_gt hmonths]
  have hd : jsOrQ ((metricsDays data : ℚ)) 1 = (metricsDays data : ℚ) := by
    unfold jsOrQ
    simp [ne_of_gt hdq]
  rw [hm, hd]

/-- Witness for C10 at a concrete one-row dataset. -/
theorem calculateMetrics_safe_witness :
    1 ≤ metricsDays
      [{ date := some 86400000, expense := 5, remarks := "", category := "Groceries",
         newCategory := "Groceries", onetime := False, forOthers := 0 }] ∧
    0 < metricsMonths
      [{ date := some 86400000, expense := 5, remarks := "", category := "Groceries",
         newCategory := "Groceries", onetime := False, forOthers := 0 }] := by
  have h := calculateMetrics_safe
    [{ date := some 86400000, expense := 5, remarks := "", category := "Groceries",
       newCategory := "Groceries", onetime := False, forOthers := 0 }]
    (by decide)
  exact ⟨h.2.1, h.2.2.1⟩

/-! ## Connection initialization (src/utils/mlx.js and ChatInterface.initializeConnections) -/

/-- Embedding of listMLXModels: on a successful fetch return the model list,
on any error (non-ok response or network failure, modelled as none) return
the empty list. -/
def listMLXModels (resp : Option (List String)) : List String :=
  match resp with
  | some ms => ms
  | none => []

/-- The chat connection state set by initializeConnections. -/
structure ConnState where
  ollamaConnected : Bool
  backendConnected : Bool
  isConnected : Bool
  connectionError : Option String
  ollamaModels : List String
  mlxModels : List String
  models : List String
  deriving DecidableEq

/-- Embedding of initializeConnections on the non-throwing path: probe both
backends, fetch models only from reachable ones, mark the pipeline connected
when either backend answered and clear the connection error; when both are
down, set the error and leave the model-list state at its initial empty
value. ollamaList is what listModels would return; mlxResp is the raw
backend response consumed by listMLXModels. -/
def initializeConnections (ollamaOk backendOk : Bool)
    (ollamaList : List String) (mlxResp : Option (List String)) : ConnState :=
  let availableOllamaModels := if ollamaOk then ollamaList else []
  let availableMlxModels := if backendOk then listMLXModels mlxResp else []
  if ollamaOk || backendOk then
    { ollamaConnected := ollamaOk
      backendConnected := backendOk
      isConnected := true
      connectionError := none
      ollamaModels := availableOllamaModels
      mlxModels := availableMlxModels
      models := availableOllamaModels ++ availableMlxModels }
  else
    { ollamaConnected := ollamaOk
      backendConnected := backendOk
      isConnected := false
      connectionError :=
        some "Could not connect to LLM services (Ollama & Backend). Make sure they are running."
      ollamaModels := []
      mlxModels := []
      models := [] }

/-- Claim C7: with exactly one backend reachable the pipeline still becomes
available: connected is true, the connection error is cleared and the
unreachable side exposes no models; initialization fails (connected false,
error set) exactly when both backends are unreachable. -/
theorem initializeConnections_degraded (ollamaOk backendOk : Bool)
    (ollamaList : List String) (mlxResp : Option (List String))
    (h : ollamaOk ≠ backendOk) :
    (initializeConnections ollamaOk backendOk ollamaList mlxResp).isConnected = true ∧
    (initializeConnections ollamaOk backendOk ollamaList mlxResp).connectionError = none ∧
    (ollamaOk = false →
      (initializeConnections ollamaOk backendOk ollamaList mlxResp).ollamaModels = []) ∧
    (backendOk = false →
      (initializeConnections ollamaOk backendOk ollamaList mlxResp).mlxModels = []) ∧
    ∀ (o b : Bool) (ol : List String) (mr : Option (List String)),
      (initializeConnections o b ol mr).isConnected = false ↔ (o = false ∧ b = false) := by
  have hiff : ∀ (o b : Bool) (ol : List String) (mr : Option (List String)),
      (initializeConnections o b ol mr).isConnected = false ↔ (o = false ∧ b = false) := by
    intro o b ol mr
    cases o <;> cases b <;> simp [initializeConnections]
  cases ollamaOk <;> cases backendOk <;> simp_all [initializeConnections]

/-- Witness for C7: Ollama down, MLX backend up. -/
theorem initializeConnections_degraded_witness :
    (initializeConnections false true [] (some ["qwen3"])).isConnected = true ∧
    (initializeConnections false true [] (some ["qwen3"])).connectionError = none ∧
    (initializeConnections false true [] (some ["qwen3"])).ollamaModels = [] := by
  have h := initializeConnections_degraded false true [] (some ["qwen3"]) (by decide)
  exact ⟨h.1, h.2.1, h.2.2.1 rfl⟩

/-! ## The execution engine front door (ChatInterface.handleSend)

handleSend calls runPythonStream (the remote-first bridge); when the remote
backend did not serve the request it gets fresh Python code from the selected
specialist model over Ollama, extracts the code from the model response, runs
it in the embedded Pyodide interpreter, and finally decides whether the
Summarizer model is invoked before assembling the answer message. -/

/-- Which path served the request; derived from the backend flag that
runPythonStream returns. -/
inductive Source
  | remote
  | embedded
  deriving DecidableEq

/-- The value runPythonStream resolves with: scalar result, chart figure JSON,
generated code, and whether the remote backend served the request. -/
structure AnalysisResult where
  result : Option String
  fig : Option String
  code : Option String
  backend : Bool
  deriving DecidableEq

/-- The value runPython resolves with on the embedded path. -/
structure LocalResult where
  result : Option String
  fig : Option String
  deriving DecidableEq

/-- A chat message as appended to the message list. -/
structure ChatMessage where
  role : String
  content : String
  isSystem : Bool
  isError : Bool
  deriving DecidableEq

/-- Everything one handleSend run produces that the claims talk about. -/
structure RunOutcome where
  source : Source
  offlineNotices : List ChatMessage
  executedLocalCode : Option String
  summarizerInvoked : Bool
  usedResult : Option String
  usedFig : Option String
  finalMessage : ChatMessage
  deriving DecidableEq

/-- Embedding of the fenced-code match against a marker (the pythonMatch
regex for marker  three backticks plus python ): the capture group is
everything after the first marker occurrence up to the next closing fence,
trimmed (the leading whitespace the regex strips is removed by the trim). -/
def matchFencedBlock (marker code : String) : Option String :=
  match jsSplitOn code marker with
  | _ :: afterHead :: afterTail =>
    let after := jsJoinWith marker (afterHead :: afterTail)
    match jsSplitOn after "```" with
    | inner :: _ :: _ => some (jsTrim inner)
    | _ => none
  | _ => none

/-- Embedding of the genericMatch regex: the capture group sits between the
first and the second fence of the trimmed response. -/
def matchGenericBlock (code : String) : Option String :=
  match jsSplitOn code "```" with
  | _ :: inner :: _ :: _ => some (jsTrim inner)
  | _ => none

/-- The backtick character, by code point. -/
def backtickChar : Char := Char.ofNat 96

/-- Embedding of the backtickMatch regex: a response fully wrapped in single
backticks; the capture group is everything between the outer two. -/
def matchBacktickWrapped (code : String) : Option String :=
  if 2 ≤ code.data.length ∧ startsWithSeq [backtickChar] code.data = true ∧
      startsWithSeq [backtickChar] code.data.reverse = true then
    some (jsTrim ⟨(code.data.drop 1).dropLast⟩)
  else none

/-- Embedding of the code-extraction cascade of the fallback path in
handleSend: trim the raw model content, then try the python fence, a generic
fence, a single-backtick wrap, and finally strip any stray fence markers. -/
def extractCode (rawContent : String) : String :=
  let code := jsTrim rawContent
  match matchFencedBlock "```python" code with
  | some inner => inner
  | none =>
    match matchGenericBlock code with
    | some inner => inner
    | none =>
      match matchBacktickWrapped code with
      | some inner => inner
      | none => jsTrim (jsReplaceAll (jsReplaceAll code "```python" "") "```" "")

/-- Embedding of the summarization guard in handleSend: the Summarizer model
is called only on the fallback path, with a truthy scalar result that is not
the string None and is shorter than 500 characters. -/
def shouldSummarize (backend : Bool) (result : Option String) : Bool :=
  match result with
  | some r => !backend && (r != "") && (r != "None") && decide (r.length < 500)
  | none => false

/-- Embedding of the final-content fallback in the answer message: a canned
acknowledgement when a figure is present, a generic completion line
otherwise. -/
def fallbackContent (fig : Option String) : String :=
  if jsTruthy fig then "I\x27ve generated a visualization for you." else "Analysis complete."

/-- Embedding of the construction of the final assistant message. -/
def mkAssistantMessage (finalContent : Option String) (fig : Option String) : ChatMessage :=
  { role := "assistant"
    content :=
      match finalContent with
      | some c => if c = "" then fallbackContent fig else c
      | none => fallbackContent fig
    isSystem := false
    isError := false }

/-- Embedding of one non-throwing handleSend run after runPythonStream has
resolved. ollamaCodeResponse is the content of the fresh code-generation
chat on the fallback path; localRun is the embedded interpreter applied to
the extracted code; summaryResponse is the content of the Summarizer chat. -/
def runHandleSend (analysisResult : AnalysisResult) (ollamaCodeResponse : Option String)
    (localRun : String → LocalResult) (summaryResponse : Option String) : RunOutcome :=
  if analysisResult.backend then
    let result := analysisResult.result
    let fig := analysisResult.fig
    { source := Source.remote
      offlineNotices := []
      executedLocalCode := none
      summarizerInvoked := shouldSummarize true result
      usedResult := result
      usedFig := fig
      finalMessage := mkAssistantMessage result fig }
  else
    let notice : ChatMessage :=
      { role := "assistant", content := "Backend offline. Running in-browser (slower)...",
        isSystem := true, isError := false }
    let rawContent := jsOrStr ollamaCodeResponse ""
    let code := extractCode rawContent
    let localResult := localRun code
    let result := localResult.result
    let fig := localResult.fig
    let summarize := shouldSummarize false result
    let finalContent := if summarize then summaryResponse else result
    { source := Source.embedded
      offlineNotices := [notice]
      executedLocalCode := some code
      summarizerInvoked := summarize
      usedResult := result
      usedFig := fig
      finalMessage := mkAssistantMessage finalContent fig }

/-- Claim C2: when the remote backend did not serve the request, handleSend
completes through the embedded interpreter: the serving source is embedded,
code is executed locally, and neither the offline notice nor the final answer
message is an error message. -/
theorem handleSend_fallback_no_error (analysisResult : AnalysisResult)
    (ollamaCodeResponse : Option String) (localRun : String → LocalResult)
    (summaryResponse : Option String)
    (h : analysisResult.backend = false) :
    (runHandleSend analysisResult ollamaCodeResponse localRun summaryResponse).source
      = Source.embedded ∧
    (runHandleSend analysisResult ollamaCodeResponse localRun summaryResponse).executedLocalCode.isSome
      = true ∧
    (runHandleSend analysisResult ollamaCodeResponse localRun summaryResponse).finalMessage.isError
      = false ∧
    ∀ m ∈ (runHandleSend analysisResult ollamaCodeResponse localRun summaryResponse).offlineNotices,
      m.isError = false := by
  unfold runHandleSend
  rw [h]
  refine ⟨rfl, rfl, rfl, ?_⟩
  intro m hm
  simp only [Bool.false_eq_true, if_false, List.mem_singleton] at hm
  rw [hm]

/-- Witness for C2 at a concrete offline run. -/
theorem handleSend_fallback_no_error_witness :
    (runHandleSend { result := none, fig := none, code := none, backend := false }
        (some "print(1)") (fun _ => { result := some "42", fig := none }) none).source
      = Source.embedded := by
  exact (handleSend_fallback_no_error
    { result := none, fig := none, code := none, backend := false }
    (some "print(1)") (fun _ => { result := some "42", fig := none }) none rfl).1

/-- Claim C6: when the execution result is a chart specification with no
compact scalar value (a truthy figure and a missing result), no Summarizer
model call is made and the answer text is the canned acknowledgement. -/
theorem handleSend_chart_skips_summarizer (analysisResult : AnalysisResult)
    (ollamaCodeResponse : Option String) (localRun : String → LocalResult)
    (summaryResponse : Option String)
    (hres : (runHandleSend analysisResult ollamaCodeResponse localRun summaryResponse).usedResult
      = none)
    (hfig : jsTruthy
      (runHandleSend analysisResult ollamaCodeResponse localRun summaryResponse).usedFig = true) :
    (runHandleSend analysisResult ollamaCodeResponse localRun summaryResponse).summarizerInvoked
      = false ∧
    (runHandleSend analysisResult ollamaCodeResponse localRun summaryResponse).finalMessage.content
      = "I\x27ve generated a visualization for you." := by
  cases hb : analysisResult.backend with
  | true =>
    simp only [runHandleSend, hb, if_true] at hres hfig ⊢
    rw [hres]
    exact ⟨rfl, by simp [mkAssistantMessage, fallbackContent, hfig]⟩
  | false =>
    simp only [runHandleSend, hb, Bool.false_eq_true, if_false] at hres hfig ⊢
    rw [hres]
    exact ⟨rfl, by simp [shouldSummarize, mkAssistantMessage, fallbackContent, hfig]⟩

/-- Witness for C6: a remote run that returned only a figure. -/
theorem handleSend_chart_skips_summarizer_witness :
    (runHandleSend { result := none, fig := some "spec", code := none, backend := true }
        none (fun _ => { result := none, fig := none }) none).summarizerInvoked = false := by
  exact (handleSend_chart_skips_summarizer
    { result := none, fig := some "spec", code := none, backend := true }
    none (fun _ => { result := none, fig := none }) none rfl rfl).1

/-- Counterexample to C3 as stated: on fallback the embedded path does not
re-execute the invocation prepared for the remote path; the executed code
comes from a fresh specialist-model chat, so two otherwise identical offline
runs that differ only in that fresh response execute different code — the
executed call is not a function of the validated invocation. -/
theorem handleSend_fallback_not_same_invocation :
    (runHandleSend { result := none, fig := none, code := none, backend := false }
        (some "print(1)") (fun _ => { result := none, fig := none }) none).executedLocalCode ≠
    (runHandleSend { result := none, fig := none, code := none, backend := false }
        (some "print(2)") (fun _ => { result := none, fig := none }) none).executedLocalCode := by
  decide

/-- Claim C3 (amended): on fallback the Execution Engine does not reuse the
invocation bound for the remote service; it obtains fresh Python code from
the specialist model, extracts it from the response, and executes exactly
that extracted code in the embedded interpreter, whose output becomes the
result of the run. -/
theorem handleSend_fallback_runs_fresh_code (analysisResult : AnalysisResult)
    (ollamaCodeResponse : Option String) (localRun : String → LocalResult)
    (summaryResponse : Option String)
    (h : analysisResult.backend = false) :
    (runHandleSend analysisResult ollamaCodeResponse localRun summaryResponse).executedLocalCode
      = some (extractCode (jsOrStr ollamaCodeResponse "")) ∧
    (runHandleSend analysisResult ollamaCodeResponse localRun summaryResponse).usedResult
      = (localRun (extractCode (jsOrStr ollamaCodeResponse ""))).result ∧
    (runHandleSend analysisResult ollamaCodeResponse localRun summaryResponse).usedFig
      = (localRun (extractCode (jsOrStr ollamaCodeResponse ""))).fig := by
  unfold runHandleSend
  rw [h]
  exact ⟨rfl, rfl, rfl⟩

/-- Witness for the amended C3 at a concrete offline run. -/
theorem handleSend_fallback_runs_fresh_code_witness :
    (runHandleSend { result := none, fig := none, code := none, backend := false }
        (some "df.sum()") (fun c => { result := some c, fig := none }) none).executedLocalCode
      = some (extractCode (jsOrStr (some "df.sum()") "")) := by
  exact (handleSend_fallback_runs_fresh_code
    { result := none, fig := none, code := none, backend := false }
    (some "df.sum()") (fun c => { result := some c, fig := none }) none rfl).1

/-! ## The validation layer

The fuzzy input-validation layer lives in backend/utils/analysis_tools.py
(the auto_validate decorator and its matchers), which is not among the
available sources; the definitions below are therefore modelled from the
specification (section 4.3 and the testable properties). -/

/-- Modelled from the spec: the case-fold-and-trim normalization applied to a
categorical argument before it is compared with the known categories. -/
def foldCat (s : String) : String :=
  jsToLower (jsTrim s)

/-- Levenshtein edit distance on character lists, by structural recursion on
a fuel that bounds the total length and therefore never runs out. -/
def levenshteinFuel : Nat → List Char → List Char → Nat
  | _, [], bs => bs.length
  | _, a :: as, [] => (a :: as).length
  | 0, as, bs => max as.length bs.length
  | fuel + 1, a :: as, b :: bs =>
    if a = b then levenshteinFuel fuel as bs
    else 1 + min (levenshteinFuel fuel as (b :: bs))
        (min (levenshteinFuel fuel (a :: as) bs) (levenshteinFuel fuel as bs))

/-- Edit distance entry point. -/
def levenshtein (a b : List Char) : Nat :=
  levenshteinFuel (a.length + b.length) a b

/-- Modelled from the spec: the similarity of an extracted value to a known
category, on a 0-100 scale — exact case-folded equality scores 100,
case-insensitive containment in either direction 90, otherwise an
edit-distance ratio over the longer length. -/
def similarityScore (k v : String) : Nat :=
  let fk := (foldCat k).data
  let fv := (foldCat v).data
  if fk = fv then 100
  else if containsSeq fv fk || containsSeq fk fv then 90
  else
    let m := max fk.length fv.length
    if m = 0 then 100 else (100 * (m - levenshtein fk fv)) / m

/-- Modelled from the spec: the fixed confidence threshold a fuzzy match must
reach before it is accepted. -/
def categoryMatchThreshold : Nat := 80

/-- One accumulation step of the best-match scan: keep whichever of the
current best and the next known category scores higher. -/
def bestStep (v : String) (best : Option (String × Nat)) (k : String) : Option (String × Nat) :=
  match best with
  | none => some (k, similarityScore k v)
  | some (k0, s0) =>
    if s0 < similarityScore k v then some (k, similarityScore k v) else some (k0, s0)

/-- Modelled from the spec: the best-scoring known category for a value. -/
def bestCategoryMatch (known : List String) (v : String) : Option (String × Nat) :=
  known.foldl (bestStep v) none

/-- Modelled from the spec: the nearest candidates reported in a validation
failure — the known categories ordered by descending similarity, top three. -/
def nearestCandidates (known : List String) (v : String) : List String :=
  (((known.map (fun k => (k, similarityScore k v))).insertionSort
      (fun a b => b.snd ≤ a.snd)).take 3).map (fun ks => ks.fst)

/-- Modelled from the spec: validation of one categorical argument. A value
whose case-folded, trimmed form equals that of a known category is accepted
as that category; otherwise the best fuzzy match is accepted only at or above
the confidence threshold, and below it validation fails carrying the nearest
candidates for diagnostics. -/
def validateCategory (known : List String) (v : String) : Except (List String) String :=
  match known.find? (fun k => foldCat k == foldCat v) with
  | some k => Except.ok k
  | none =>
    match bestCategoryMatch known v with
    | some (k, s) =>
      if categoryMatchThreshold ≤ s then Except.ok k
      else Except.error (nearestCandidates known v)
    | none => Except.error (nearestCandidates known v)

/-- Exact case-folded equality always scores 100. -/
theorem similarityScore_of_fold_eq (k v : String) (h : foldCat k = foldCat v) :
    similarityScore k v = 100 := by
  unfold similarityScore
  rw [h]
  simp

/-- The best-match scan never reports a score higher than every candidate
allows: starting from an accumulator below the bound, over categories all
scoring below the bound, the final score stays below the bound. -/
theorem bestCategoryMatch_bound (v : String) (bound : Nat) :
    ∀ (l : List String) (acc : Option (String × Nat)),
      (∀ q : String × Nat, acc = some q → q.snd < bound) →
      (∀ k ∈ l, similarityScore k v < bound) →
      ∀ q : String × Nat, l.foldl (bestStep v) acc = some q → q.snd < bound := by
  intro l
  induction l with
  | nil =>
    intro acc hacc _ q hq
    exact hacc q hq
  | cons k ks ih =>
    intro acc hacc hall q hq
    rw [List.foldl_cons] at hq
    refine ih (bestStep v acc k) ?_ (fun x hx => hall x (List.mem_cons_of_mem _ hx)) q hq
    intro q2 hq2
    cases acc with
    | none =>
      simp only [bestStep] at hq2
      cases hq2
      exact hall k (List.mem_cons_self _ _)
    | some p =>
      obtain ⟨k0, s0⟩ := p
      simp only [bestStep] at hq2
      by_cases hlt : s0 < similarityScore k v
      · rw [if_pos hlt] at hq2
        cases hq2
        exact hall k (List.mem_cons_self _ _)
      · rw [if_neg hlt] at hq2
        cases hq2
        exact hacc (k0, s0) rfl

/-- Claim C4: a categorical value whose case-folded, trimmed form exactly
matches a known category is returned as exactly that category, and running
validation again on the returned category gives the same category
(idempotence on already-clean input). -/
theorem validateCategory_exact (known : List String) (v k : String)
    (h : known.find? (fun x => foldCat x == foldCat v) = some k) :
    validateCategory known v = Except.ok k ∧ validateCategory known k = Except.ok k := by
  have heq : foldCat k = foldCat v := by
    have := List.find?_some h
    simpa using this
  constructor
  · unfold validateCategory
    rw [h]
  · unfold validateCategory
    have hsame : (fun x => foldCat x == foldCat k) = (fun x => foldCat x == foldCat v) := by
      funext x
      rw [heq]
    rw [hsame, h]

/-- Witness for C4: the specialist extracted a spaced, upper-cased variant of
a known category; validation returns the canonical category, and is
idempotent on it. -/
theorem validateCategory_exact_witness :
    validateCategory ["Food", "Transport"] " FOOD " = Except.ok "Food" ∧
      validateCategory ["Food", "Transport"] "Food" = Except.ok "Food" := by
  have h := validateCategory_exact ["Food", "Transport"] " FOOD " "Food" (by decide)
  exact ⟨h.1, h.2⟩

/-- Claim C5: a categorical value whose similarity to every known category is
below the fixed confidence threshold is rejected, with the nearest candidates
reported; no default category is substituted. -/
theorem validateCategory_below_threshold (known : List String) (v : String)
    (h : ∀ k ∈ known, similarityScore k v < categoryMatchThreshold) :
    validateCategory known v = Except.error (nearestCandidates known v) := by
  have hfind : known.find? (fun k => foldCat k == foldCat v) = none := by
    cases hf : known.find? (fun k => foldCat k == foldCat v) with
    | none => rfl
    | some k =>
      have hmem := List.mem_of_find?_eq_some hf
      have heq : foldCat k = foldCat v := by
        have := List.find?_some hf
        simpa using this
      have h100 := similarityScore_of_fold_eq k v heq
      have hlt := h k hmem
      rw [h100] at hlt
      simp [categoryMatchThreshold] at hlt
  unfold validateCategory
  rw [hfind]
  cases hbm : bestCategoryMatch known v with
  | none => rfl
  | some p =>
    obtain ⟨k, s⟩ := p
    have hs : s < categoryMatchThreshold := by
      refine bestCategoryMatch_bound v categoryMatchThreshold known none ?_ h (k, s) hbm
      intro q hq
      cases hq
    dsimp only
    rw [if_neg (by omega)]

/-- Witness for C5: a value unrelated to every known category is rejected
rather than mapped to a default. -/
theorem validateCategory_below_threshold_witness :
    validateCategory ["Food", "Transport"] "zzzz"
      = Except.error (nearestCandidates ["Food", "Transport"] "zzzz") := by
  exact validateCategory_below_threshold ["Food", "Transport"] "zzzz" (by decide)

/-! ## The execution gate on tool invocations

The remote computation service (backend main application) and the embedded
Pyodide bridge both execute tools through the validated-invocation interface
of backend/utils/analysis_tools.py, absent from the available sources; the
dispatcher below is modelled from the specification (sections 3, 4.3, 4.4). -/

/-- One entry of a tool parameter schema. -/
structure ParamSpec where
  name : String
  required : Bool
  deriving DecidableEq

/-- A tool definition from the Tool Registry. -/
structure ToolDefinition where
  name : String
  parameterSchema : List ParamSpec
  deriving DecidableEq

/-- A tool invocation produced by the Specialist agent. -/
structure ToolInvocation where
  toolName : String
  arguments : List (String × String)
  deriving DecidableEq

/-- Why validation rejected an invocation. -/
inductive ValidationFailure
  | missingParam (name : String)
  | badCategory (name : String) (candidates : List String)
  deriving DecidableEq

/-- Keyword-argument lookup by parameter name. -/
def lookupArg (args : List (String × String)) (p : String) : Option String :=
  (args.find? (fun kv => kv.fst == p)).map (fun kv => kv.snd)

/-- Replacing the value bound to a parameter name, keeping every key. -/
def setArg (args : List (String × String)) (p v : String) : List (String × String) :=
  args.map (fun kv => (kv.fst, if kv.fst = p then v else kv.snd))

/-- Modelled from the spec: the validation layer applied to a raw invocation
before any execution — every parameter marked required must be present, and
a categorical argument is fuzzy-corrected against the known categories,
failing below the confidence threshold. -/
def validateInvocation (td : ToolDefinition) (known : List String) (inv : ToolInvocation) :
    Except ValidationFailure ToolInvocation :=
  match td.parameterSchema.find?
      (fun p => p.required && (lookupArg inv.arguments p.name).isNone) with
  | some p => Except.error (ValidationFailure.missingParam p.name)
  | none =>
    match lookupArg inv.arguments "category" with
    | none => Except.ok inv
    | some raw =>
      match validateCategory known raw with
      | Except.ok c =>
        Except.ok { inv with arguments := setArg inv.arguments "category" c }
      | Except.error cands => Except.error (ValidationFailure.badCategory "category" cands)

/-- What a tool computes: a scalar representation and an optional chart. -/
structure ExecOutput where
  value : String
  chartSpec : Option String
  deriving DecidableEq

/-- The execution engine result, tagged with the serving path. -/
structure EngineResult where
  value : String
  chartSpec : Option String
  source : Source
  deriving DecidableEq

/-- An execution failure: either validation rejected the invocation, or the
tool itself failed on valid input. -/
inductive ExecError
  | validation (f : ValidationFailure)
  | toolError (msg : String)
  deriving DecidableEq

/-- Modelled from the spec: the hybrid dispatcher — validate unconditionally,
then run the tool on whichever path is available, recording the source.
Both paths execute the same corrected invocation through the same gate. -/
def executeInvocation (remoteReachable : Bool) (td : ToolDefinition) (known : List String)
    (runTool : ToolInvocation → ExecOutput) (inv : ToolInvocation) :
    Except ExecError EngineResult :=
  match validateInvocation td known inv with
  | Except.error f => Except.error (ExecError.validation f)
  | Except.ok corrected =>
    let out := runTool corrected
    Except.ok { value := out.value, chartSpec := out.chartSpec,
                source := if remoteReachable then Source.remote else Source.embedded }

/-- Rebinding one argument value never changes which parameter names are
present. -/
theorem lookupArg_setArg_isSome (args : List (String × String)) (p q v : String) :
    (lookupArg (setArg args q v) p).isSome = (lookupArg args p).isSome := by
  induction args with
  | nil => rfl
  | cons kv rest ih =>
    cases hk : (kv.fst == p) with
    | true => simp [lookupArg, setArg, List.find?_cons, hk]
    | false => simpa [lookupArg, setArg, List.find?_cons, hk] using ih

/-- Claim C1: an invocation is executed — on either the remote or the
embedded path — only after validation succeeded on it, and the validated
invocation then carries every parameter marked required in the tool schema. -/
theorem executeInvocation_validates (remoteReachable : Bool) (td : ToolDefinition)
    (known : List String) (runTool : ToolInvocation → ExecOutput)
    (inv : ToolInvocation) (res : EngineResult)
    (h : executeInvocation remoteReachable td known runTool inv = Except.ok res) :
    ∃ corrected, validateInvocation td known inv = Except.ok corrected ∧
      ∀ p ∈ td.parameterSchema, p.required = true →
        (lookupArg corrected.arguments p.name).isSome = true := by
  unfold executeInvocation at h
  cases hv : validateInvocation td known inv with
  | error f =>
    rw [hv] at h
    cases h
  | ok corrected0 =>
    refine ⟨corrected0, rfl, ?_⟩
    cases hf : td.parameterSchema.find?
        (fun p => p.required && (lookupArg inv.arguments p.name).isNone) with
    | some p =>
      have hbad : validateInvocation td known inv
          = Except.error (ValidationFailure.missingParam p.name) := by
        simp only [validateInvocation, hf]
      rw [hbad] at hv
      cases hv
    | none =>
      have hreq : ∀ p ∈ td.parameterSchema, p.required = true →
          (lookupArg inv.arguments p.name).isSome = true := by
        intro p hp hr
        have hnot := List.find?_eq_none.mp hf p hp
        cases hlk : lookupArg inv.arguments p.name with
        | none => exact absurd (by simp [hr, hlk]) hnot
        | some w => rfl
      cases hc : lookupArg inv.arguments "category" with
      | none =>
        have hok : validateInvocation td known inv = Except.ok inv := by
          simp only [validateInvocation, hf, hc]
        rw [hok] at hv
        cases hv
        exact hreq
      | some raw =>
        cases hvc : validateCategory known raw with
        | error cands =>
          have hbad : validateInvocation td known inv
              = Except.error (ValidationFailure.badCategory "category" cands) := by
            simp only [validateInvocation, hf, hc, hvc]
          rw [hbad] at hv
          cases hv
        | ok cat =>
          have hok : validateInvocation td known inv
              = Except.ok { inv with arguments := setArg inv.arguments "category" cat } := by
            simp only [validateInvocation, hf, hc, hvc]
          rw [hok] at hv
          cases hv
          intro p hp hr
          have harg : ({ inv with arguments := setArg inv.arguments "category" cat }
              : ToolInvocation).arguments = setArg inv.arguments "category" cat := rfl
          rw [harg, lookupArg_setArg_isSome]
          exact hreq p hp hr

/-- A concrete tool definition with one required categorical parameter. -/
def sampleTool : ToolDefinition :=
  { name := "calculate_total", parameterSchema := [{ name := "category", required := true }] }

/-- A concrete invocation with a lower-cased categorical argument. -/
def sampleInvocation : ToolInvocation :=
  { toolName := "calculate_total", arguments := [("category", "food")] }

/-- Witness for C1 at a concrete executed invocation. -/
theorem executeInvocation_validates_witness :
    ∃ corrected, validateInvocation sampleTool ["Food"] sampleInvocation
        = Except.ok corrected ∧
      ∀ p ∈ sampleTool.parameterSchema, p.required = true →
        (lookupArg corrected.arguments p.name).isSome = true := by
  exact executeInvocation_validates true sampleTool ["Food"]
    (fun _ => { value := "100", chartSpec := none }) sampleInvocation
    { value := "100", chartSpec := none, source := Source.remote } rfl

/-! ## Stage events of one pipeline run

The fixed stage order is the WORKFLOW_STAGES constant of the chat interface;
the emission of the events themselves happens in the streaming bridge of
src/utils/pythonRunner.js and the backend pipeline, which are not among the
available sources, so the emitter is modelled from the specification
(sections 4.6 and 5). The chat interface stamps each received event with the
current value of a monotonic performance clock. -/

/-- The pipeline stages, in the chat interface naming. -/
inductive Stage
  | router
  | specialist
  | executing
  | summarizing
  deriving DecidableEq

/-- Position of a stage in the fixed forward order. -/
def Stage.idx : Stage → Nat
  | Stage.router => 0
  | Stage.specialist => 1
  | Stage.executing => 2
  | Stage.summarizing => 3

/-- Embedding of the WORKFLOW_STAGES constant: the fixed forward stage order
of the workflow indicator. -/
def WORKFLOW_STAGES : List Stage :=
  [Stage.router, Stage.specialist, Stage.executing, Stage.summarizing]

/-- One stage-transition event of a run. -/
structure StageEvent where
  stage : Stage
  message : String
  timestamp : Nat
  deriving DecidableEq

/-- Status line shown for a stage. -/
def stageMessage : Stage → String
  | Stage.router => "Selecting tool"
  | Stage.specialist => "Extracting arguments"
  | Stage.executing => "Running analysis"
  | Stage.summarizing => "Writing summary"

/-- Modelled from the spec: sequential emission of one event per stage. Each
emission happens strictly after the previous one on the monotonic clock; gap
gives the time spent inside a stage before its event is stamped. -/
def emitStages : List Stage → Nat → (Nat → Nat) → List StageEvent
  | [], _, _ => []
  | s :: rest, t, gap =>
    { stage := s, message := stageMessage s, timestamp := t + gap t + 1 }
      :: emitStages rest (t + gap t + 1) gap

/-- Modelled from the spec: the event stream of one pipeline run — the fixed
forward stage order, with the summarizing stage dropped when the Orchestrator
explicitly skips the Summarizer. -/
def orchestratorEvents (t0 : Nat) (gap : Nat → Nat) (skipSummarizing : Bool) : List StageEvent :=
  emitStages
    (if skipSummarizing then [Stage.router, Stage.specialist, Stage.executing]
     else WORKFLOW_STAGES) t0 gap

/-- The emitted events visit exactly the requested stages, in order. -/
theorem emitStages_map_stage (l : List Stage) (t : Nat) (gap : Nat → Nat) :
    (emitStages l t gap).map (fun e => e.stage) = l := by
  induction l generalizing t with
  | nil => rfl
  | cons s rest ih => simp [emitStages, ih]

/-- Every emitted event is stamped strictly after the emission start time. -/
theorem emitStages_timestamp_gt (l : List Stage) (t : Nat) (gap : Nat → Nat) :
    ∀ e ∈ emitStages l t gap, t < e.timestamp := by
  induction l generalizing t with
  | nil =>
    intro e he
    simp [emitStages] at he
  | cons s rest ih =>
    intro e he
    rw [emitStages, List.mem_cons] at he
    cases he with
    | inl h =>
      rw [h]
      show t < t + gap t + 1
      omega
    | inr h =>
      have := ih (t + gap t + 1) e h
      omega

/-- Emission over a forward-ordered stage list yields events that strictly
increase both in time and in stage position. -/
theorem emitStages_pairwise (l : List Stage) (t : Nat) (gap : Nat → Nat)
    (hl : l.Pairwise (fun a b => a.idx < b.idx)) :
    (emitStages l t gap).Pairwise
      (fun a b => a.timestamp < b.timestamp ∧ a.stage.idx < b.stage.idx) := by
  induction l generalizing t with
  | nil => exact List.Pairwise.nil
  | cons s rest ih =>
    rw [List.pairwise_cons] at hl
    rw [emitStages]
    refine List.Pairwise.cons ?_ (ih (t + gap t + 1) hl.2)
    intro e he
    refine ⟨emitStages_timestamp_gt rest (t + gap t + 1) gap e he, ?_⟩
    have hmem : e.stage ∈ rest := by
      have := List.mem_map_of_mem (fun e => e.stage) he
      rwa [emitStages_map_stage] at this
    exact hl.1 e.stage hmem

/-- Claim C8: the stage events of one run follow the fixed forward order
router, specialist, executing, summarizing — the visited stages are exactly
that order (with summarizing possibly skipped), the timestamps are strictly
increasing, and a later stage never precedes an earlier one, so no stage is
revisited. -/
theorem orchestratorEvents_ordered (t0 : Nat) (gap : Nat → Nat) (skipSummarizing : Bool) :
    (orchestratorEvents t0 gap skipSummarizing).Pairwise
      (fun a b => a.timestamp < b.timestamp ∧ a.stage.idx < b.stage.idx) ∧
    (orchestratorEvents t0 gap skipSummarizing).map (fun e => e.stage)
      = (if skipSummarizing then [Stage.router, Stage.specialist, Stage.executing]
         else WORKFLOW_STAGES) := by
  constructor
  · apply emitStages_pairwise
    cases skipSummarizing with
    | true => decide
    | false => decide
  · exact emitStages_map_stage _ t0 gap

end ExpenseSense
